import Mathlib

/-!
# Verification of the secure-chat server (`server.go`)

Shallow embedding of the server-side logic of the line-oriented TCP chat
service: the per-connection dialogue of `handleClient` (register / login /
chat phases), the credential store backed by the `users` table
(`username TEXT UNIQUE NOT NULL, password TEXT NOT NULL`), and the
`broadcast` fan-out over the `clients` map.

Conventions of the embedding:
* connections are identified by `Nat` ids; the `clients` map
  (`map[net.Conn]*Client`) becomes an association list `List (Nat × String)`
  from connection id to username, with no duplicate keys in reachable states;
* each input the server reads (`reader.ReadString('\n')` in the dialogue,
  `conn.Read(buf)` in chat mode) is passed in as a `String` argument exactly
  as received, terminators included;
* each write the server performs is recorded as the exact string put on the
  wire: `fmt.Fprintln(conn, m)` writes `m ++ "\n"`, and
  `fmt.Fprintf(conn, "Welcome back, %s!\n", usr)` writes
  `"Welcome back, " ++ usr ++ "!\n"`;
* registry and store operations are serialized, mirroring `clientsMutex`
  and the SQL layer's serialization of statements.
-/

namespace SecureChat

/-- Go's `unicode.IsSpace` on the Latin-1 range, the whitespace class used by
`strings.TrimSpace`: `'\t'`, `'\n'`, `'\v'`, `'\f'`, `'\r'`, `' '`,
`U+0085` (NEL) and `U+00A0` (NBSP). (Higher Unicode space code points are
outside the alphabet exercised here.) -/
def goIsSpace (c : Char) : Bool :=
  c == ' ' || c == '\t' || c == '\n' || c == '\u000b' || c == '\u000c' ||
    c == '\r' || c == '\u0085' || c == '\u00A0'

/-- `strings.TrimSpace`: drop leading and trailing whitespace. -/
def trimSpace (s : String) : String :=
  ⟨((s.data.dropWhile goIsSpace).reverse.dropWhile goIsSpace).reverse⟩

/-- The two `strings.ReplaceAll(regAttempt, "[", "")` /
`strings.ReplaceAll(regAttempt, "]", "")` calls of `handleClient`
(lines 113–114): replacing a one-character pattern by the empty string
removes every occurrence of that character. -/
def removeBrackets (s : String) : String :=
  ⟨(s.data.filter (fun c => !(c == '['))).filter (fun c => !(c == ']'))⟩

/-- Modelled from the spec: the spec scopes the password-hashing algorithm
out as an opaque one-way function `hash(plaintext) -> digest` (`server.go`
computes the SHA-256 hex digest through the standard library's
`sha256.Sum256` / `hex.EncodeToString`, code outside this repository).
`hashPassword` is embedded as an injective digest constructor, the
collision-freeness the opaque-hash reading assumes. -/
def hashPassword (password : String) : String :=
  "sha256:" ++ password

/-- The credential store: the rows of the `users` table, keyed by
`username` (declared `UNIQUE NOT NULL`). Each entry is
`(username, password digest)`. -/
abbrev Store := List (String × String)

/-- `SELECT password FROM users WHERE username = ?`: digest of the row whose
username matches, if any (the `UNIQUE` constraint makes it unique). -/
def lookupUser : Store → String → Option String
  | [], _ => none
  | (u', d) :: rest, u => if u' = u then some d else lookupUser rest u

/-- `INSERT INTO users (username, password) VALUES (?, ?)`: the `UNIQUE`
constraint on `username` makes the statement fail, leaving the table
unchanged, exactly when the username is already present. -/
def insertUser (s : Store) (u digest : String) : Option Store :=
  match lookupUser s u with
  | some _ => none
  | none => some ((u, digest) :: s)

/-- One write performed on behalf of a broadcast: the target connection id
and the exact bytes written (`fmt.Fprintln` appends `"\n"`). -/
structure Delivery where
  conn : Nat
  text : String
  deriving DecidableEq, Repr

/-- The `clients` map: association list from connection id to username. -/
abbrev Registry := List (Nat × String)

/-- `broadcast(message, sender)` (lines 209–218): under `clientsMutex`,
write `message` (plus `Fprintln`'s newline) to every client of the
`clients` map except the sender. -/
def broadcast (clients : Registry) (message : String) (sender : Nat) :
    List Delivery :=
  (clients.filter (fun p => p.1 != sender)).map
    (fun p => { conn := p.1, text := message ++ "\n" })

/-- `delete(clients, conn)` (map removal, line 194); also the
overwrite part of map assignment. -/
def eraseConn (clients : Registry) (conn : Nat) : Registry :=
  clients.filter (fun p => p.1 != conn)

/-- The texts delivered to connection `c`, in order, among a list of
broadcast writes. -/
def deliveriesTo (c : Nat) (ds : List Delivery) : List String :=
  (ds.filter (fun d => d.conn == c)).map Delivery.text

/-- Result of the registration branch of `handleClient`. -/
structure RegResult where
  clientOut : List String
  store : Store
  success : Bool
  deriving Repr

/-- Stand-in for the driver's duplicate-key error text interpolated into the
`"Failed to register: %v\n"` line; the claims never inspect it. -/
def uniqueErr : String := "UNIQUE constraint failed: users.username"

/-- The `register` branch of `handleClient` (lines 101–147): prompt for the
registration code, trim it and strip every `[` and `]`, compare to
`masterRegKey`; on match prompt for username and password (each
`TrimSpace`d), hash the password and attempt the insert. `clientOut` lists
the exact strings written to this connection, in order. -/
def handleClientRegister (masterRegKey : String) (store : Store)
    (regLine usrLine pwdLine : String) : RegResult :=
  let regAttempt := removeBrackets (trimSpace regLine)
  if regAttempt ≠ masterRegKey then
    { clientOut := ["Enter the server's registration code: \n",
                    "Invalid registration code. Closing connection.\n"],
      store := store, success := false }
  else
    let usr := trimSpace usrLine
    let pwd := trimSpace pwdLine
    let hashed := hashPassword pwd
    match insertUser store usr hashed with
    | none =>
        { clientOut := ["Enter the server's registration code: \n",
                        "Enter your desired username: \n",
                        "Enter your desired password (typing not hidden): \n",
                        "Failed to register: %v\n " ++ uniqueErr ++ "\n"],
          store := store, success := false }
    | some store' =>
        { clientOut := ["Enter the server's registration code: \n",
                        "Enter your desired username: \n",
                        "Enter your desired password (typing not hidden): \n",
                        "Registration successful! You can now login.\n"],
          store := store', success := true }

/-- Result of the login branch of `handleClient` up to entering the chat
loop. `chatting = some usr` means the handler reached the chat loop with
display name `usr`; `deliveries` are the join-announcement writes. -/
structure LoginResult where
  clientOut : List String
  deliveries : List Delivery
  clients : Registry
  chatting : Option String
  deriving Repr

/-- The `login` branch of `handleClient` (lines 149–186): prompt for
username and password (each `TrimSpace`d), look the username up, compare
the stored digest with the hash of the submitted password; on match greet,
add the session to `clients` (map assignment) and broadcast the join
announcement — the sender itself is excluded by `broadcast`. -/
def handleClientLogin (store : Store) (clients : Registry) (conn : Nat)
    (usrLine pwdLine : String) : LoginResult :=
  let usr := trimSpace usrLine
  let pwd := trimSpace pwdLine
  match lookupUser store usr with
  | none =>
      { clientOut := ["Username: \n",
                      "Password (typing not hidden): \n",
                      "Invalid username or password.\n"],
        deliveries := [], clients := clients, chatting := none }
  | some stored =>
      if hashPassword pwd ≠ stored then
        { clientOut := ["Username: \n",
                        "Password (typing not hidden): \n",
                        "Invalid username or password.\n"],
          deliveries := [], clients := clients, chatting := none }
      else
        let clients' := (conn, usr) :: eraseConn clients conn
        { clientOut := ["Username: \n",
                        "Password (typing not hidden): \n",
                        "Welcome back, " ++ usr ++ "!\n"],
          deliveries := broadcast clients' (usr ++ " has joined the chat") conn,
          clients := clients', chatting := some usr }

/-- The writes produced by the successful iterations of the chat loop
(lines 190–201): each successful `conn.Read(buf)` yields one chunk
`message := string(buf[:n])`, broadcast verbatim as
`fmt.Sprintf("%s: %s", usr, message)`. -/
def chatDeliveries (clients : Registry) (conn : Nat) (usr : String) :
    List String → List Delivery
  | [] => []
  | m :: ms =>
      broadcast clients (usr ++ ": " ++ m) conn ++
        chatDeliveries clients conn usr ms

/-- The whole chat loop of `handleClient` (lines 188–201) on a scripted
connection: the successful reads deliver `chunks` in order, then the read
fails (end of stream or error), the session is deleted from `clients`, and
the leave announcement is broadcast over the shrunken map. Returns all
broadcast writes and the final registry. -/
def handleClientChat (clients : Registry) (conn : Nat) (usr : String)
    (chunks : List String) : List Delivery × Registry :=
  (chatDeliveries clients conn usr chunks ++
     broadcast (eraseConn clients conn) (usr ++ " has left the chat") conn,
   eraseConn clients conn)

/-- Byte length of a string on the wire (UTF-8), the unit `conn.Read`'s
1024-byte buffer is measured in. -/
def byteLen (s : String) : Nat :=
  (s.data.map Char.utf8Size).sum

/-- Concatenation of the chunks a client write arrives in. -/
def concatChunks : List String → String
  | [] => ""
  | m :: ms => m ++ concatChunks ms

end SecureChat

namespace SecureChat

/-! ## Helper lemmas -/

theorem data_append (a b : String) : (a ++ b).data = a.data ++ b.data := by
  cases a; cases b; rfl

/-- The opaque digest function of the model is collision-free. -/
theorem hashPassword_injective {p q : String}
    (h : hashPassword p = hashPassword q) : p = q := by
  unfold hashPassword at h
  have h2 : ("sha256:" ++ p).data = ("sha256:" ++ q).data := by rw [h]
  rw [data_append, data_append] at h2
  have h3 := List.append_cancel_left h2
  exact String.ext h3

theorem broadcast_cons (hd : Nat × String) (tl : Registry) (message : String)
    (sender : Nat) :
    broadcast (hd :: tl) message sender =
      if hd.1 = sender then broadcast tl message sender
      else { conn := hd.1, text := message ++ "\n" } :: broadcast tl message sender := by
  by_cases h : hd.1 = sender <;> simp [broadcast, List.filter_cons, h]

theorem deliveriesTo_nil (c : Nat) : deliveriesTo c [] = [] := rfl

theorem deliveriesTo_cons (c : Nat) (d : Delivery) (ds : List Delivery) :
    deliveriesTo c (d :: ds) =
      if d.conn = c then d.text :: deliveriesTo c ds else deliveriesTo c ds := by
  by_cases h : d.conn = c <;> simp [deliveriesTo, List.filter_cons, h]

theorem deliveriesTo_append (c : Nat) (ds es : List Delivery) :
    deliveriesTo c (ds ++ es) = deliveriesTo c ds ++ deliveriesTo c es := by
  simp [deliveriesTo, List.filter_append]

/-- A connection absent from the registry receives nothing from a broadcast. -/
theorem deliveriesTo_broadcast_of_not_mem (clients : Registry) (message : String)
    (sender c : Nat) (hc : c ∉ clients.map Prod.fst) :
    deliveriesTo c (broadcast clients message sender) = [] := by
  induction clients with
  | nil => rfl
  | cons hd tl ih =>
    simp only [List.map_cons, List.mem_cons, not_or] at hc
    rw [broadcast_cons]
    by_cases hs : hd.1 = sender
    · rw [if_pos hs]; exact ih hc.2
    · rw [if_neg hs, deliveriesTo_cons, if_neg (fun h => hc.1 h.symm)]
      exact ih hc.2

/-- The sender receives nothing from its own broadcast. -/
theorem deliveriesTo_broadcast_sender (clients : Registry) (message : String)
    (sender : Nat) :
    deliveriesTo sender (broadcast clients message sender) = [] := by
  induction clients with
  | nil => rfl
  | cons hd tl ih =>
    rw [broadcast_cons]
    by_cases hs : hd.1 = sender
    · rw [if_pos hs]; exact ih
    · rw [if_neg hs, deliveriesTo_cons, if_neg hs]; exact ih

/-- A registered connection other than the sender receives the broadcast
exactly once (the registry has no duplicate keys). -/
theorem deliveriesTo_broadcast_of_mem (clients : Registry) (message : String)
    (sender c : Nat) (hnd : (clients.map Prod.fst).Nodup)
    (hc : c ∈ clients.map Prod.fst) (hne : c ≠ sender) :
    deliveriesTo c (broadcast clients message sender) = [message ++ "\n"] := by
  induction clients with
  | nil => simp at hc
  | cons hd tl ih =>
    simp only [List.map_cons, List.nodup_cons] at hnd
    simp only [List.map_cons, List.mem_cons] at hc
    rw [broadcast_cons]
    rcases hc with hc | hc
    · subst hc
      rw [if_neg hne, deliveriesTo_cons, if_pos rfl,
        deliveriesTo_broadcast_of_not_mem tl message sender _ hnd.1]
    · have hne2 : hd.1 ≠ c := fun h => hnd.1 (h ▸ hc)
      by_cases hs : hd.1 = sender
      · rw [if_pos hs]; exact ih hnd.2 hc
      · rw [if_neg hs, deliveriesTo_cons, if_neg hne2]; exact ih hnd.2 hc

theorem map_fst_eraseConn (clients : Registry) (conn : Nat) :
    (eraseConn clients conn).map Prod.fst =
      (clients.map Prod.fst).filter (fun x => x != conn) := by
  induction clients with
  | nil => rfl
  | cons hd tl ih =>
    by_cases h : hd.1 = conn <;>
      simp [eraseConn, List.filter_cons, h, ih] <;> simp [eraseConn] at ih <;>
      exact ih

theorem not_mem_eraseConn (clients : Registry) (conn : Nat) :
    conn ∉ (eraseConn clients conn).map Prod.fst := by
  rw [map_fst_eraseConn]
  intro h
  have := List.of_mem_filter h
  simp at this

theorem mem_eraseConn (clients : Registry) (conn c : Nat)
    (hc : c ∈ clients.map Prod.fst) (hne : c ≠ conn) :
    c ∈ (eraseConn clients conn).map Prod.fst := by
  rw [map_fst_eraseConn]
  exact List.mem_filter.mpr ⟨hc, by simpa using hne⟩

theorem nodup_eraseConn (clients : Registry) (conn : Nat)
    (hnd : (clients.map Prod.fst).Nodup) :
    ((eraseConn clients conn).map Prod.fst).Nodup := by
  rw [map_fst_eraseConn]
  exact hnd.filter _

/-- During the chat loop, a registered connection other than the chatting one
receives one relayed message per chunk read, each chunk carried verbatim. -/
theorem deliveriesTo_chatDeliveries (clients : Registry) (conn : Nat) (usr : String)
    (chunks : List String) (c : Nat) (hnd : (clients.map Prod.fst).Nodup)
    (hc : c ∈ clients.map Prod.fst) (hne : c ≠ conn) :
    deliveriesTo c (chatDeliveries clients conn usr chunks) =
      chunks.map (fun m => usr ++ ": " ++ m ++ "\n") := by
  induction chunks with
  | nil => rfl
  | cons m ms ih =>
    rw [chatDeliveries, deliveriesTo_append,
      deliveriesTo_broadcast_of_mem clients _ conn c hnd hc hne, ih]
    rfl

/-- The chatting connection itself receives none of its own relayed chunks. -/
theorem deliveriesTo_chatDeliveries_sender (clients : Registry) (conn : Nat)
    (usr : String) (chunks : List String) :
    deliveriesTo conn (chatDeliveries clients conn usr chunks) = [] := by
  induction chunks with
  | nil => rfl
  | cons m ms ih =>
    rw [chatDeliveries, deliveriesTo_append, deliveriesTo_broadcast_sender, ih]
    rfl

/-- A relayed chat line never collides with the leave announcement of the
same user: the character after the username differs. -/
theorem chat_text_ne_leave_text (usr m : String) :
    usr ++ ": " ++ m ++ "\n" ≠ usr ++ " has left the chat" ++ "\n" := by
  intro h
  have hd : (usr ++ ": " ++ m ++ "\n").data
      = (usr ++ " has left the chat" ++ "\n").data := by rw [h]
  simp only [data_append, List.append_assoc] at hd
  have h2 := List.append_cancel_left hd
  simp only [List.cons_append, List.cons.injEq] at h2
  exact absurd h2.1 (by decide)

theorem lookupUser_cons_self (u d : String) (s : Store) :
    lookupUser ((u, d) :: s) u = some d := by
  simp [lookupUser]

/-- A successful registration requires the normalized code to match, the
trimmed username to be free, and prepends the new credential row. -/
theorem handleClientRegister_success {key : String} {s : Store} {r u p : String}
    (h : (handleClientRegister key s r u p).success = true) :
    removeBrackets (trimSpace r) = key ∧
    lookupUser s (trimSpace u) = none ∧
    (handleClientRegister key s r u p).store
      = (trimSpace u, hashPassword (trimSpace p)) :: s := by
  by_cases hk : removeBrackets (trimSpace r) = key
  · cases hl : lookupUser s (trimSpace u) with
    | some d => exact absurd h (by simp [handleClientRegister, insertUser, hk, hl])
    | none =>
        refine ⟨hk, rfl, ?_⟩
        simp [handleClientRegister, insertUser, hk, hl]
  · exact absurd h (by simp [handleClientRegister, hk])

theorem byteLen_append (a b : String) :
    byteLen (a ++ b) = byteLen a + byteLen b := by
  simp [byteLen, data_append]

theorem byteLen_concatChunks (chunks : List String) :
    byteLen (concatChunks chunks) = (chunks.map byteLen).sum := by
  induction chunks with
  | nil => rfl
  | cons m ms ih => simp [concatChunks, byteLen_append, ih]

end SecureChat

namespace SecureChat

/-! ## Claim theorems -/

/-- Claim C1, amended: for every registration that succeeded, a login
presenting exactly the same username and password lines reaches the welcome
line and the chatting state; a login presenting the same username and a
password whose whitespace-trimmed value differs from the registered one
fails with the generic invalid-credentials transcript and never reaches
chatting. (The claim as frozen — any different password fails — is refuted
by `login_whitespace_password_counterexample`: the server trims whitespace
from the submitted password before hashing.) -/
theorem register_login_roundtrip (key : String) (s : Store) (r u p : String)
    (clients : Registry) (conn : Nat)
    (h : (handleClientRegister key s r u p).success = true) :
    ((handleClientLogin (handleClientRegister key s r u p).store clients conn u p).chatting
        = some (trimSpace u) ∧
      "Welcome back, " ++ trimSpace u ++ "!\n"
        ∈ (handleClientLogin (handleClientRegister key s r u p).store clients conn u p).clientOut) ∧
    (∀ p', trimSpace p' ≠ trimSpace p →
      (handleClientLogin (handleClientRegister key s r u p).store clients conn u p').clientOut
          = ["Username: \n", "Password (typing not hidden): \n",
             "Invalid username or password.\n"] ∧
      (handleClientLogin (handleClientRegister key s r u p).store clients conn u p').chatting
          = none) := by
  obtain ⟨hk, hl, hs⟩ := handleClientRegister_success h
  rw [hs]
  constructor
  · constructor <;> simp [handleClientLogin, lookupUser]
  · intro p' hp
    have hne : hashPassword (trimSpace p') ≠ hashPassword (trimSpace p) :=
      fun hcontra => hp (hashPassword_injective hcontra)
    constructor <;> simp [handleClientLogin, lookupUser, hne]

/-- Claim C1 witness: registering `alice`/`pw` then logging in with the same
pair reaches chatting; logging in with `zz` instead is rejected. -/
theorem register_login_roundtrip_witness :
    (handleClientRegister "k" [] "k" "alice" "pw").success = true ∧
    (handleClientLogin (handleClientRegister "k" [] "k" "alice" "pw").store [] 1
        "alice" "pw").chatting = some "alice" ∧
    (handleClientLogin (handleClientRegister "k" [] "k" "alice" "pw").store [] 1
        "alice" "zz").chatting = none := by
  refine ⟨by decide, ?_, ?_⟩
  · exact ((register_login_roundtrip "k" [] "k" "alice" "pw" [] 1 (by decide)).1).1
  · exact ((register_login_roundtrip "k" [] "k" "alice" "pw" [] 1 (by decide)).2 "zz"
      (by decide)).2

/-- Claim C1 counterexample: after registering with password line `"pw\n"`,
a login presenting the different password line `" pw\n"` nevertheless
succeeds and reaches chatting, because the server whitespace-trims the
submitted password before hashing — refuting the frozen claim that any
different password fails. -/
theorem login_whitespace_password_counterexample :
    (handleClientRegister "abc" [] "abc\n" "alice\n" "pw\n").success = true ∧
    " pw\n" ≠ "pw\n" ∧
    (handleClientLogin (handleClientRegister "abc" [] "abc\n" "alice\n" "pw\n").store
        [] 1 "alice\n" " pw\n").chatting = some "alice" ∧
    "Welcome back, alice!\n"
      ∈ (handleClientLogin (handleClientRegister "abc" [] "abc\n" "alice\n" "pw\n").store
          [] 1 "alice\n" " pw\n").clientOut := by
  refine ⟨by decide, by decide, by decide, by decide⟩

/-- Claim C2: once a registration for a (trimmed) username has succeeded, a
second attempt for the same username fails — whatever code, username line
and password are submitted — the store is left unchanged, the underlying
insert fails, and the stored digest is not overwritten: it still maps to
the first password's digest. -/
theorem duplicate_registration_fails (key : String) (s : Store)
    (r u p r2 u2 p2 : String)
    (h : (handleClientRegister key s r u p).success = true)
    (h2 : trimSpace u2 = trimSpace u) :
    (handleClientRegister key (handleClientRegister key s r u p).store r2 u2 p2).success
        = false ∧
    (handleClientRegister key (handleClientRegister key s r u p).store r2 u2 p2).store
        = (handleClientRegister key s r u p).store ∧
    insertUser (handleClientRegister key s r u p).store (trimSpace u2)
        (hashPassword (trimSpace p2)) = none ∧
    lookupUser (handleClientRegister key s r u p).store (trimSpace u)
        = some (hashPassword (trimSpace p)) := by
  obtain ⟨hk, hl, hs⟩ := handleClientRegister_success h
  rw [hs]
  have hlook : lookupUser ((trimSpace u, hashPassword (trimSpace p)) :: s)
      (trimSpace u2) = some (hashPassword (trimSpace p)) := by
    simp [lookupUser, h2]
  refine ⟨?_, ?_, ?_, lookupUser_cons_self _ _ _⟩ <;>
    by_cases hk2 : removeBrackets (trimSpace r2) = key <;>
    simp [handleClientRegister, insertUser, hk2, hlook]

/-- Claim C2 witness: registering `bob` twice succeeds once and fails once,
and `bob` still maps to the first digest. -/
theorem duplicate_registration_fails_witness :
    (handleClientRegister "k" (handleClientRegister "k" [] "k" "bob" "pw").store
        "k" "bob" "qq").success = false ∧
    lookupUser (handleClientRegister "k" (handleClientRegister "k" [] "k" "bob" "pw").store
        "k" "bob" "qq").store "bob" = some (hashPassword "pw") := by
  have h := duplicate_registration_fails "k" [] "k" "bob" "pw" "k" "bob" "qq"
    (by decide) (by decide)
  exact ⟨h.1, by rw [h.2.1]; exact h.2.2.2⟩

/-- Claim C3 counterexample: with secret `abc`, the submitted line
`[[abc]]` differs from the secret after whitespace-trimming (and is not the
secret wrapped in one pair of brackets), yet registration is accepted and no
invalid-code message is written — the server removes every `[` and `]`
character, not just a wrapping pair, before comparing. -/
theorem regcode_trim_only_counterexample :
    trimSpace "[[abc]]" ≠ "abc" ∧
    (handleClientRegister "abc" [] "[[abc]]" "u" "p").success = true ∧
    "Invalid registration code. Closing connection.\n"
      ∉ (handleClientRegister "abc" [] "[[abc]]" "u" "p").clientOut := by
  refine ⟨by decide, by decide, by decide⟩

/-- Claim C3, amended: a submitted registration-secret line is rejected with
the invalid-code message, the connection closed and the store untouched,
exactly when its normalized form — whitespace-trimmed, then every `[` and
`]` character removed — differs from the process's secret; when the
normalized form equals the secret the dialogue proceeds to the username
prompt. In particular the secret wrapped in `[` `]` brackets normalizes to
the secret itself (the generated secret is bracket-free hex) and is
accepted. -/
theorem registration_code_check (key : String) (s : Store) (r u p : String) :
    (removeBrackets (trimSpace r) ≠ key →
      handleClientRegister key s r u p =
        { clientOut := ["Enter the server's registration code: \n",
                        "Invalid registration code. Closing connection.\n"],
          store := s, success := false }) ∧
    (removeBrackets (trimSpace r) = key →
      (handleClientRegister key s r u p).clientOut.take 2
        = ["Enter the server's registration code: \n",
           "Enter your desired username: \n"]) ∧
    ((∀ c ∈ key.data, c ≠ '[' ∧ c ≠ ']') →
      removeBrackets (trimSpace ("[" ++ key ++ "]")) = key) := by
  have hdata : ("[" ++ key ++ "]").data = '[' :: (key.data ++ [']']) := by
    simp [data_append]
  refine ⟨?_, ?_, ?_⟩
  · intro hk; simp [handleClientRegister, hk]
  · intro hk
    cases hl : lookupUser s (trimSpace u) <;>
      simp [handleClientRegister, insertUser, hk, hl]
  · intro hfree
    have h1 : trimSpace ("[" ++ key ++ "]") = "[" ++ key ++ "]" := by
      apply String.ext
      show ((("[" ++ key ++ "]").data.dropWhile goIsSpace).reverse.dropWhile
          goIsSpace).reverse = ("[" ++ key ++ "]").data
      rw [hdata]
      simp [List.dropWhile_cons, goIsSpace]
    rw [h1]
    apply String.ext
    show ((("[" ++ key ++ "]").data.filter (fun c => !(c == '['))).filter
        (fun c => !(c == ']'))) = key.data
    rw [hdata]
    simp only [List.filter_cons, List.filter_append]
    have hf1 : key.data.filter (fun c => !(c == '[')) = key.data :=
      List.filter_eq_self.mpr (fun c hc => by simp [(hfree c hc).1])
    have hf2 : key.data.filter (fun c => !(c == ']')) = key.data :=
      List.filter_eq_self.mpr (fun c hc => by simp [(hfree c hc).2])
    simp [hf1, hf2]

/-- Claim C3 witness: with secret `ab`, the line `zz` is rejected with the
invalid-code transcript, and `[ab]` normalizes to the secret. -/
theorem registration_code_check_witness :
    handleClientRegister "ab" [] "zz" "u" "p" =
      { clientOut := ["Enter the server's registration code: \n",
                      "Invalid registration code. Closing connection.\n"],
        store := [], success := false } ∧
    removeBrackets (trimSpace ("[" ++ "ab" ++ "]")) = "ab" :=
  ⟨(registration_code_check "ab" [] "zz" "u" "p").1 (by decide),
   (registration_code_check "ab" [] "zz" "u" "p").2.2 (by decide)⟩

/-- Claim C4: the full client-visible login transcript for a nonexistent
username is byte-identical to the transcript for an existing username with a
wrong password — both are the two prompts followed by
`Invalid username or password.` — so login failure reveals nothing about
whether the username exists. -/
theorem login_rejection_indistinguishable (s : Store) (clients clients' : Registry)
    (conn conn' : Nat) (u p u' p' d : String)
    (h1 : lookupUser s (trimSpace u) = none)
    (h2 : lookupUser s (trimSpace u') = some d)
    (h3 : hashPassword (trimSpace p') ≠ d) :
    (handleClientLogin s clients conn u p).clientOut
        = (handleClientLogin s clients' conn' u' p').clientOut ∧
    (handleClientLogin s clients conn u p).clientOut
        = ["Username: \n", "Password (typing not hidden): \n",
           "Invalid username or password.\n"] := by
  constructor <;> simp [handleClientLogin, h1, h2, h3]

/-- Claim C4 witness: against a store holding only `bob`, the transcript for
unknown `alice` equals the transcript for `bob` with a wrong password. -/
theorem login_rejection_indistinguishable_witness :
    (handleClientLogin [("bob", hashPassword "pw")] [] 1 "alice" "pw").clientOut
      = (handleClientLogin [("bob", hashPassword "pw")] [] 2 "bob" "zz").clientOut :=
  (login_rejection_indistinguishable [("bob", hashPassword "pw")] [] [] 1 2
    "alice" "pw" "bob" "zz" (hashPassword "pw") (by decide) (by decide) (by decide)).1

/-- Claim C5: a broadcast originated by session `a` is delivered exactly
once to every registered session other than `a`, and is never delivered
back to `a`. -/
theorem broadcast_excludes_only_sender (clients : Registry) (message : String)
    (a c : Nat) (u : String) (hnd : (clients.map Prod.fst).Nodup)
    (hmem : (c, u) ∈ clients) (hne : c ≠ a) :
    deliveriesTo c (broadcast clients message a) = [message ++ "\n"] ∧
    deliveriesTo a (broadcast clients message a) = [] :=
  ⟨deliveriesTo_broadcast_of_mem clients message a c hnd
      (List.mem_map_of_mem Prod.fst hmem) hne,
   deliveriesTo_broadcast_sender clients message a⟩

/-- Claim C5 witness: with two registered sessions, a broadcast from
session 2 reaches session 1 exactly once and session 2 not at all. -/
theorem broadcast_excludes_only_sender_witness :
    deliveriesTo 1 (broadcast [(1, "x"), (2, "y")] "hello" 2) = ["hello" ++ "\n"] ∧
    deliveriesTo 2 (broadcast [(1, "x"), (2, "y")] "hello" 2) = [] :=
  broadcast_excludes_only_sender [(1, "x"), (2, "y")] "hello" 2 1 "x"
    (by decide) (by decide) (by decide)

end SecureChat

namespace SecureChat

/-- Claim C6 counterexample: the chat loop does not broadcast the input line
without its terminator. With sessions `alice` (1) and `bob` (2), `bob`'s
read chunk `"hi\n"` is delivered to `alice` as `"bob: hi\n"` (plus the
delivery newline), and the broadcast payload `"bob" ++ ": " ++ "hi\n"`
differs from `"bob: hi"`, the line without its terminator — the loop reads
raw chunks with `conn.Read`, not lines. -/
theorem chat_payload_keeps_terminator_counterexample :
    deliveriesTo 1 (chatDeliveries [(1, "alice"), (2, "bob")] 2 "bob" ["hi\n"])
      = ["bob: hi\n\n"] ∧
    "bob" ++ ": " ++ "hi\n" ≠ "bob: hi" := by
  refine ⟨by decide, by decide⟩

/-- Claim C6, amended: in the chatting state the server reads raw chunks
(not lines) from the connection, and for every chunk read it broadcasts to
each other session exactly the string `"<displayName>: <chunk>"`, one
broadcast per chunk, the chunk carried verbatim — any newline characters
the client sent included. -/
theorem chat_broadcast_per_chunk (clients : Registry) (conn : Nat) (usr : String)
    (chunks : List String) (c : Nat) (u' : String)
    (hnd : (clients.map Prod.fst).Nodup) (hmem : (c, u') ∈ clients)
    (hne : c ≠ conn) :
    deliveriesTo c (chatDeliveries clients conn usr chunks)
      = chunks.map (fun m => usr ++ ": " ++ m ++ "\n") :=
  deliveriesTo_chatDeliveries clients conn usr chunks c hnd
    (List.mem_map_of_mem Prod.fst hmem) hne

/-- Claim C6 witness: two chunks from `bob` reach session 1 as exactly two
relayed messages, chunks verbatim. -/
theorem chat_broadcast_per_chunk_witness :
    deliveriesTo 1 (chatDeliveries [(1, "alice"), (2, "bob")] 2 "bob" ["a\n", "b\n"])
      = ["a\n", "b\n"].map (fun m => "bob" ++ ": " ++ m ++ "\n") :=
  chat_broadcast_per_chunk [(1, "alice"), (2, "bob")] 2 "bob" ["a\n", "b\n"] 1 "alice"
    (by decide) (by decide) (by decide)

/-- Claim C7: when a chatting session's read fails or its stream closes, the
session is removed from the registry; every other currently-registered
session receives the `"<username> has left the chat"` notice exactly once
(a relayed chat line can never be mistaken for it); the departed connection
receives nothing at any point of the run; and no broadcast over the
resulting registry — whatever message and originator — ever targets the
departed connection again. -/
theorem leave_notice_on_disconnect (clients : Registry) (conn : Nat) (usr : String)
    (chunks : List String) (c : Nat) (u' : String)
    (hnd : (clients.map Prod.fst).Nodup) (hmem : (c, u') ∈ clients)
    (hne : c ≠ conn) :
    (handleClientChat clients conn usr chunks).2 = eraseConn clients conn ∧
    (deliveriesTo c (handleClientChat clients conn usr chunks).1).count
        (usr ++ " has left the chat" ++ "\n") = 1 ∧
    deliveriesTo conn (handleClientChat clients conn usr chunks).1 = [] ∧
    (∀ message sender,
      deliveriesTo conn
        (broadcast (handleClientChat clients conn usr chunks).2 message sender)
          = []) := by
  have hc : c ∈ clients.map Prod.fst := List.mem_map_of_mem Prod.fst hmem
  have hce : c ∈ (eraseConn clients conn).map Prod.fst :=
    mem_eraseConn clients conn c hc hne
  have hnde : ((eraseConn clients conn).map Prod.fst).Nodup :=
    nodup_eraseConn clients conn hnd
  have hsplit : (handleClientChat clients conn usr chunks).1
      = chatDeliveries clients conn usr chunks ++
          broadcast (eraseConn clients conn) (usr ++ " has left the chat") conn := rfl
  refine ⟨rfl, ?_, ?_, ?_⟩
  · rw [hsplit, deliveriesTo_append,
      deliveriesTo_chatDeliveries clients conn usr chunks c hnd hc hne,
      deliveriesTo_broadcast_of_mem _ _ conn c hnde hce hne, List.count_append]
    have hzero : (chunks.map (fun m => usr ++ ": " ++ m ++ "\n")).count
        (usr ++ " has left the chat" ++ "\n") = 0 := by
      rw [List.count_eq_zero]
      intro hmem2
      obtain ⟨m, _, hm⟩ := List.mem_map.mp hmem2
      exact chat_text_ne_leave_text usr m hm
    rw [hzero]
    simp
  · rw [hsplit, deliveriesTo_append, deliveriesTo_chatDeliveries_sender,
      deliveriesTo_broadcast_sender]
    rfl
  · intro message sender
    exact deliveriesTo_broadcast_of_not_mem _ _ _ _ (not_mem_eraseConn clients conn)

/-- Claim C7 witness: after `bob` (session 2) disconnects, session 1 counts
exactly one leave notice for `bob`. -/
theorem leave_notice_on_disconnect_witness :
    (deliveriesTo 1 (handleClientChat [(1, "x"), (2, "y")] 2 "bob" ["m\n"]).1).count
        ("bob" ++ " has left the chat" ++ "\n") = 1 :=
  (leave_notice_on_disconnect [(1, "x"), (2, "y")] 2 "bob" ["m\n"] 1 "x"
    (by decide) (by decide) (by decide)).2.1

/-- Claim C8 counterexample: the stored value is not the literal line
content unchanged — registering with username line `" alice \n"` stores the
username `"alice"`: the server whitespace-trims the username and password
lines before use. -/
theorem username_stored_trimmed_counterexample :
    (handleClientRegister "k" [] "k" " alice \n" "pw").store
      = [("alice", hashPassword "pw")] ∧
    "alice" ≠ " alice \n" ∧
    trimSpace " alice \n" = "alice" := by
  refine ⟨by decide, by decide, by decide⟩

/-- Claim C8, amended: username and password lines are accepted as data for
their fields with no content validation — any lines whatsoever, the empty
line included, register successfully when the code matches and the username
is free — but the value stored is the whitespace-trimmed line content (and
the password's digest), not the literal line; chat chunks are relayed
verbatim with no transformation. -/
theorem fields_trimmed_not_validated (key : String) (s : Store) (r u p : String)
    (hr : removeBrackets (trimSpace r) = key)
    (hfree : lookupUser s (trimSpace u) = none) :
    ((handleClientRegister key s r u p).success = true ∧
     (handleClientRegister key s r u p).store
       = (trimSpace u, hashPassword (trimSpace p)) :: s) ∧
    (∀ clients conn c u' usr m, (clients.map Prod.fst).Nodup → (c, u') ∈ clients →
      c ≠ conn →
      deliveriesTo c (chatDeliveries clients conn usr [m])
        = [usr ++ ": " ++ m ++ "\n"]) := by
  constructor
  · constructor <;> simp [handleClientRegister, insertUser, hr, hfree]
  · intro clients conn c u' usr m hnd hmem hne
    rw [deliveriesTo_chatDeliveries clients conn usr [m] c hnd
      (List.mem_map_of_mem Prod.fst hmem) hne]
    rfl

/-- Claim C8 witness: whitespace-padded username and password lines register
successfully and are stored trimmed. -/
theorem fields_trimmed_not_validated_witness :
    (handleClientRegister "k" [] "k" " alice \n" " pw \n").store
      = (trimSpace " alice \n", hashPassword (trimSpace " pw \n")) :: [] :=
  ((fields_trimmed_not_validated "k" [] "k" " alice \n" " pw \n"
    (by decide) (by decide)).1).2

/-- Claim C9 counterexample: a session with an empty display name is
reachable — registering with the empty username line `"\n"` succeeds (no
validation), and logging in with it registers a session whose display name
is `""`, refuting the non-emptiness part of the invariant. -/
theorem empty_display_name_counterexample :
    (handleClientLogin (handleClientRegister "k" [] "k" "\n" "pw").store [] 1
        "\n" "pw").chatting = some "" ∧
    (handleClientLogin (handleClientRegister "k" [] "k" "\n" "pw").store [] 1
        "\n" "pw").clients = [(1, "")] ∧
    ("" : String).length = 0 := by
  refine ⟨by decide, by decide, by decide⟩

/-- Claim C9, amended: every session added to the registry at login carries
as display name the trimmed submitted username (possibly empty), which at
that moment is a username stored in the credential store — the stored
digest equals the hash of the submitted password. -/
theorem session_display_name_matches_store (s : Store) (clients : Registry)
    (conn : Nat) (u p usr : String)
    (h : (handleClientLogin s clients conn u p).chatting = some usr) :
    usr = trimSpace u ∧
    lookupUser s usr = some (hashPassword (trimSpace p)) ∧
    (handleClientLogin s clients conn u p).clients
      = (conn, usr) :: eraseConn clients conn := by
  cases hl : lookupUser s (trimSpace u) with
  | none => exact absurd h (by simp [handleClientLogin, hl])
  | some d =>
      by_cases hh : hashPassword (trimSpace p) = d
      · have hch : (handleClientLogin s clients conn u p).chatting
            = some (trimSpace u) := by
          simp [handleClientLogin, hl, hh]
        rw [hch] at h
        have husr : usr = trimSpace u := (Option.some.inj h).symm
        refine ⟨husr, ?_, ?_⟩
        · rw [husr, hl, hh]
        · rw [husr]; simp [handleClientLogin, hl, hh]
      · exact absurd h (by simp [handleClientLogin, hl, hh])

/-- Claim C9 witness: the session registered by `bob`'s login matches the
stored credential record for `bob`. -/
theorem session_display_name_matches_store_witness :
    lookupUser [("bob", hashPassword "pw")] "bob"
      = some (hashPassword (trimSpace "pw")) :=
  (session_display_name_matches_store [("bob", hashPassword "pw")] [] 1
    "bob" "pw" "bob" (by decide)).2.1

/-- Claim C10: in chat mode each broadcast payload is the sender's username,
a colon and space, and one raw read chunk carried verbatim, newlines
included; and since each `conn.Read` returns at most the 1024 bytes of
`buf`, a client write longer than 1024 bytes necessarily arrives as at
least two chunks, hence is delivered as multiple separate broadcasts. -/
theorem chat_chunking (clients : Registry) (conn : Nat) (usr : String)
    (chunks : List String) (c : Nat) (u' : String) (w : String)
    (hnd : (clients.map Prod.fst).Nodup) (hmem : (c, u') ∈ clients) (hne : c ≠ conn)
    (hw : concatChunks chunks = w)
    (hsize : ∀ m ∈ chunks, byteLen m ≤ 1024)
    (hbig : 1024 < byteLen w) :
    deliveriesTo c (chatDeliveries clients conn usr chunks)
      = chunks.map (fun m => usr ++ ": " ++ m ++ "\n") ∧
    2 ≤ chunks.length := by
  refine ⟨deliveriesTo_chatDeliveries clients conn usr chunks c hnd
    (List.mem_map_of_mem Prod.fst hmem) hne, ?_⟩
  subst hw
  rw [byteLen_concatChunks] at hbig
  cases chunks with
  | nil => simp at hbig
  | cons m t =>
      cases t with
      | nil =>
          exfalso
          have h1 : byteLen m ≤ 1024 := hsize m (by simp)
          simp at hbig
          omega
      | cons b t2 => simp [List.length_cons]

/-- Claim C10 witness: a 1200-byte client write split into two 600-byte
chunks yields at least two broadcasts. -/
theorem chat_chunking_witness :
    2 ≤ ([(⟨List.replicate 600 'a'⟩ : String),
          (⟨List.replicate 600 'a'⟩ : String)] : List String).length := by
  have hrep : byteLen ⟨List.replicate 600 'a'⟩ = 600 := by
    show (List.map Char.utf8Size (List.replicate 600 'a')).sum = 600
    rw [List.map_replicate, show Char.utf8Size 'a' = 1 from by decide,
      List.sum_replicate, smul_eq_mul, mul_one]
  refine (chat_chunking [(1, "x"), (2, "y")] 2 "bob"
    [⟨List.replicate 600 'a'⟩, ⟨List.replicate 600 'a'⟩] 1 "x"
    (concatChunks [⟨List.replicate 600 'a'⟩, ⟨List.replicate 600 'a'⟩])
    (by decide) (by decide) (by decide) rfl ?_ ?_).2
  · intro m hm
    simp only [List.mem_cons, List.not_mem_nil, or_false] at hm
    rcases hm with rfl | rfl <;> rw [hrep] <;> omega
  · rw [byteLen_concatChunks]
    simp only [List.map_cons, List.map_nil, hrep, List.sum_cons, List.sum_nil]
    omega

end SecureChat
